import Mathlib

/-!
Shallow embedding of the pharmalink customer-to-pharmacy assignment and
trip-estimation pipeline (the "thesis" repository): the assignment selector,
the trip fetcher and routing-engine lifecycle of the development notebook's
`calculate_trips`, and the mode probability table built in the
mode-of-transport notebook.  Machine floats of the source are modelled as
rationals; `Option`/`Except` model absent JSON keys and raised Python
exceptions; the randomness of `pandas.Series.sample` and of the weighted
mode draw is modelled by an explicit selector argument `r : Nat`, so that a
theorem quantified over `r` covers every draw the source could make.
-/

/-- The three transport modes (`costing` values) requested per customer:
`["auto", "bicycle", "pedestrian"]`. -/
inductive Mode
  | auto
  | bicycle
  | pedestrian
deriving DecidableEq

/-- A point location in the projected plane (EPSG:25832 coordinates in the
source); coordinates are modelled as rationals. -/
structure Point where
  x : ℚ
  y : ℚ
deriving DecidableEq

/-- The `summary` object of a Valhalla trip: `length` (kilometers) and
`time` (seconds).  The road-attribute boolean flags (`has_toll` etc.) are
dropped by the aggregator and play no role in the embedded logic, so they
are not modelled. -/
structure TripSummary where
  length : ℚ
  time : ℚ
deriving DecidableEq

/-- The `trip` object of a Valhalla `/route` response, as far as the
pipeline reads it. -/
structure Trip where
  summary : TripSummary
deriving DecidableEq

/-- One `/route` response: it either contains a `"trip"` key (`some`) or
does not (`none`, no route found for that mode). -/
structure RouteResponse where
  trip : Option Trip
deriving DecidableEq

/-- The Python exceptions the embedded code can raise. -/
inductive PyError
  | zeroDivisionError
  | keyError
  | valueError
  | outOfRangeError
deriving DecidableEq

/-- The request body built by `fetch_trip`:
`{id, locations, costing, units, directions_type}` (the two constant string
fields are omitted). -/
structure TripRequest where
  id : Nat
  locations : List Point
  costing : Mode
deriving DecidableEq

/-- The location triple of `process_customer`:
`start = end = customer`, `target = pharmacy`, `locations = [start, target, end]`. -/
def mkLocations (cusLoc phLoc : Point) : List Point :=
  [cusLoc, phLoc, cusLoc]

/-- The request `fetch_trip(session, cus_id, locations, mot)` issues:
`params = {"id": cus_id, "locations": locations, "costing": mot, ...}`. -/
def fetch_trip_request (cusId : Nat) (locations : List Point) (mot : Mode) : TripRequest :=
  { id := cusId, locations := locations, costing := mot }

/-- The three requests `process_customer` launches for one customer, one per
mode in `["auto", "bicycle", "pedestrian"]`, all over the same round-trip
location triple. -/
def tripRequests (cusId : Nat) (cusLoc phLoc : Point) : List TripRequest :=
  [Mode.auto, Mode.bicycle, Mode.pedestrian].map
    (fetch_trip_request cusId (mkLocations cusLoc phLoc))

/-! Mode probability table.  The mode-of-transport notebook builds
`breaks = [0, 0.5, 1, 2, 5, 10, 20, 50, 100, float("inf")]` and a row of
probabilities per left-closed interval `[b_i, b_{i+1})`
(`pd.IntervalIndex.from_breaks(breaks, closed="left")`), normalized so each
row sums to 1 (`probs.div(probs.agg(axis=1, func="sum"), axis=0)`). -/

/-- The finite entries of `breaks`; the final entry `float("inf")` of the
source list is modelled by the absence of an upper bound in `inBucket`
(an out-of-range `breaksFin[i+1]?` returning `none`). -/
def breaksFin : List ℚ := [0, 1/2, 1, 2, 5, 10, 20, 50, 100]

/-- Whether `x` lies in the `i`-th left-closed interval of the breaks:
`breaks[i] ≤ x < breaks[i+1]`, where a missing `breaks[i+1]` is the
`float("inf")` upper bound of the last interval. -/
def inBucket (x : ℚ) (i : Nat) : Bool :=
  (breaksFin[i]?).elim false fun lo =>
    (breaksFin[i+1]?).elim (decide (lo ≤ x)) fun hi =>
      decide (lo ≤ x) && decide (x < hi)

/-- Interval lookup of `pd.IntervalIndex` built `from_breaks(..., closed="left")`:
the index of the interval containing `x` among the 9 intervals, `none` when
no interval contains `x` (a `KeyError` in pandas, possible only for `x < 0`). -/
def bucketIndex (x : ℚ) : Option Nat :=
  (List.range 9).find? (inBucket x)

/-- One row of the mode probability table: probability of each mode for one
distance bucket. -/
structure ModeRow where
  auto : ℚ
  bicycle : ℚ
  pedestrian : ℚ
deriving DecidableEq

/-- The rows of the constructed table, one per interval, as printed by the
notebook (`json.dumps(output)`); each entry is the exact rational whose
IEEE-754 double appears in that output, e.g. `12/97 = 0.12371134020618557…`,
`42/88 = 0.47727272727272724…`, `19/88 = 0.2159090909090909…`. -/
def probsData : List ModeRow :=
  [⟨12/97, 9/97, 76/97⟩,
   ⟨28/93, 17/93, 48/93⟩,
   ⟨42/88, 19/88, 27/88⟩,
   ⟨55/81, 13/81, 13/81⟩,
   ⟨65/76, 7/76, 4/76⟩,
   ⟨73/77, 3/77, 1/77⟩,
   ⟨74/77, 2/77, 1/77⟩,
   ⟨71/73, 2/73, 0⟩,
   ⟨1, 0, 0⟩]

/-- The table row for a given average length: interval lookup followed by
row access (`data[i]`). -/
def bucketRow (x : ℚ) : Option ModeRow :=
  (bucketIndex x).bind fun i => probsData[i]?

/-- Probability of one mode in a row. -/
def modeProb (row : ModeRow) : Mode → ℚ
  | Mode.auto => row.auto
  | Mode.bicycle => row.bicycle
  | Mode.pedestrian => row.pedestrian

/-! Assignment Selector.  The trips notebook's cell:
for each customer, `closest = ph_locs.distance(cus).sort_values(ascending=True).head(3)`
and `chosen_pharmacies.append(closest.sample(weights=1 / closest).index[0])`.
The selector is embedded over the already-computed distance series
`ds : List (Nat × ℚ)`, one `(pharmacy index, Euclidean projected-plane
distance)` pair per pharmacy; distances are non-negative by construction,
which the theorems do not assume. -/

/-- One weight of `1 / closest`: float division by zero yields `inf` in
numpy/pandas, modelled as `none`. -/
def invWeight (d : ℚ) : Option ℚ :=
  if d = 0 then none else some (1 / d)

/-- Model of `Series.sample(n=1, weights=ws)`: pandas raises `ValueError`
when a weight is `inf` or negative or all weights are zero (it also cannot
sample one row from an empty series); otherwise it returns one position
whose weight is positive.  The draw is supplied by `r`: every position with
positive weight is a possible result. -/
def sampleIdx (ws : List (Option ℚ)) (r : Nat) : Except PyError Nat :=
  if ws.any (fun w => w.isNone) then Except.error PyError.valueError
  else
    let vs := ws.map (fun w => w.getD 0)
    if vs.any (fun v => decide (v < 0)) then Except.error PyError.valueError
    else if vs.sum = 0 then Except.error PyError.valueError
    else
      let pos := (List.range ws.length).filter (fun i => decide (0 < vs.getD i 0))
      match pos[r % pos.length]? with
      | some i => Except.ok i
      | none => Except.error PyError.valueError

/-- Comparison key of `sort_values(axis=0, ascending=True)` on the distance
series: ascending distance. -/
def distLE (a b : Nat × ℚ) : Prop := a.2 ≤ b.2

instance (a b : Nat × ℚ) : Decidable (distLE a b) :=
  inferInstanceAs (Decidable (a.2 ≤ b.2))

instance : IsTotal (Nat × ℚ) distLE := ⟨fun a b => le_total a.2 b.2⟩

instance : IsTrans (Nat × ℚ) distLE := ⟨fun _ _ _ h h' => le_trans h h'⟩

/-- `sort_values(axis=0, ascending=True)` on the distance series. -/
def sortByDistance (ds : List (Nat × ℚ)) : List (Nat × ℚ) :=
  List.insertionSort distLE ds

/-- `.head(3)`: the three nearest pharmacies (fewer when fewer exist). -/
def closestThree (ds : List (Nat × ℚ)) : List (Nat × ℚ) :=
  (sortByDistance ds).take 3

/-- `closest.sample(weights=1 / closest)`: the sampled `(index, distance)`
row of the candidate series. -/
def chosen_entry (ds : List (Nat × ℚ)) (r : Nat) : Except PyError (Nat × ℚ) :=
  let closest := closestThree ds
  (sampleIdx (closest.map fun e => invWeight e.2) r).bind fun i =>
    match closest[i]? with
    | some e => Except.ok e
    | none => Except.error PyError.keyError

/-- `closest.sample(weights=1 / closest).index[0]`: the pharmacy index the
customer is assigned. -/
def chosen_pharmacy (ds : List (Nat × ℚ)) (r : Nat) : Except PyError Nat :=
  (chosen_entry ds r).map Prod.fst

/-- Modelled from the spec: `evaluate_mode_of_transport(avg_length, available)`
is defined in `pharmalink/code/sources.py`, which is not among the
repository files here (only its caller in the trips notebook is).  Following
the spec's §4.4 words: a negative average length fails with `OutOfRangeError`;
otherwise locate the distance bucket containing the average length, restrict
that bucket's probability row to the available modes, renormalize the
restricted weights to sum to 1, and draw one mode via weighted random
sampling with those weights — a draw can land on any available mode of
positive weight, supplied by `r`; if no available mode carries positive
mass, fall back to a uniform choice among the available modes. -/
def evaluate_mode_of_transport (avg : ℚ) (avail : List Mode) (r : Nat) :
    Except PyError Mode :=
  if avg < 0 then Except.error PyError.outOfRangeError
  else
    match bucketRow avg with
    | none => Except.error PyError.keyError
    | some row =>
      let restricted := avail.map fun m => (m, modeProb row m)
      let total := (restricted.map Prod.snd).sum
      if total = 0 then
        match avail[r % avail.length]? with
        | some m => Except.ok m
        | none => Except.error PyError.valueError
      else
        let pos := restricted.filter fun p => decide (0 < p.2)
        match pos[r % pos.length]? with
        | some p => Except.ok p.1
        | none => Except.error PyError.valueError

/-- Modelled from the spec: the renormalized sampling weights of the
inference step — the bucket's probability row restricted to the available
modes, each divided by the restricted total. -/
def renormalizedWeights (avg : ℚ) (avail : List Mode) : Option (List (Mode × ℚ)) :=
  (bucketRow avg).map fun row =>
    avail.map fun m => (m, modeProb row m / (avail.map (modeProb row)).sum)

/-- The positive-weight part of the bucket row restricted to the available
modes: the support of the weighted draw. -/
def positiveRestricted (row : ModeRow) (avail : List Mode) : List (Mode × ℚ) :=
  (avail.map fun m => (m, modeProb row m)).filter fun p => decide (0 < p.2)

/-! Trip Fetcher and routing-engine lifecycle, from the development
notebook's `process_customer` and `calculate_trips`.  The network is
abstracted by the response each request receives; `asyncio.as_completed`
only affects the order in which the per-mode results enter the dictionary,
and the dictionary, its key set and the mean are order-independent, so the
per-mode results are collected in request order. -/

/-- Python's `/` on two numbers: raises `ZeroDivisionError` when the
divisor is zero. -/
def pyDiv (a b : ℚ) : Except PyError ℚ :=
  if b = 0 then Except.error PyError.zeroDivisionError else Except.ok (a / b)

/-- `process_customer(session, cus)` given the response of each fetched
request: collect the `trip` object of each mode whose response has one
(`if "trip" in result`), compute
`avg_length = sum(lengths) / len(results)` (unguarded Python division),
choose a mode with `evaluate_mode_of_transport(avg_length, results.keys())`
and return `{cus_id: results[chosen_mot]}` (with the chosen mode added to
the record). -/
def process_customer (cusId : Nat) (cusLoc phLoc : Point)
    (resp : TripRequest → RouteResponse) (r : Nat) :
    Except PyError (Nat × Mode × Trip) :=
  let results : List (Mode × Trip) :=
    (tripRequests cusId cusLoc phLoc).filterMap fun req =>
      ((resp req).trip).map fun t => (req.costing, t)
  (pyDiv (results.map fun p => p.2.summary.length).sum (results.length : ℚ)).bind
    fun avg => (evaluate_mode_of_transport avg (results.map Prod.fst) r).bind
      fun chosen =>
        match results.lookup chosen with
        | some t => Except.ok (cusId, chosen, t)
        | none => Except.error PyError.keyError

/-- One customer row of `customers.itertuples()`: `cus[0]` the id, `cus[1]`
the location, `cus[2]` the chosen pharmacy. -/
structure Customer where
  id : Nat
  loc : Point
  chosenPharmacy : Nat
deriving DecidableEq

/-- The processing phase of `calculate_trips`: one `process_customer` task
per customer, results collected into one mapping; a task's exception
propagates out of the loop and aborts the batch. -/
def run_batch (customers : List Customer) (pharmLoc : Nat → Point)
    (resp : Nat → TripRequest → RouteResponse) (r : Nat) :
    Except PyError (List (Nat × Mode × Trip)) :=
  match customers with
  | [] => Except.ok []
  | c :: rest =>
    (process_customer c.id c.loc (pharmLoc c.chosenPharmacy) (resp c.id) r).bind fun t =>
      (run_batch rest pharmLoc resp r).bind fun ts => Except.ok (t :: ts)

/-- The polling loop `while valhalla_instance.health != "healthy":
await asyncio.sleep(0.1); valhalla_instance.reload()`, unfolded for a
bounded number of polls of the health stream: `some n` when the loop exits
after reading `health n = "healthy"` within the bound, `none` when the loop
is still running after `fuel` polls. -/
def awaitReadySteps (health : Nat → String) : Nat → Option Nat
  | 0 => none
  | fuel + 1 =>
    if health 0 = "healthy" then some 0
    else (awaitReadySteps (fun n => health (n + 1)) fuel).map (· + 1)

/-- The lifecycle operations `calculate_trips` performs on the Valhalla
container. -/
inductive EngineOp
  | start
  | stop
deriving DecidableEq

/-- `calculate_trips()` as the trace of engine lifecycle operations it
performs together with its outcome: `valhalla_instance.start()`, then the
health-polling loop (no outcome at all while it never exits — the second
component `none`), then the processing phase; an exception there propagates
immediately, and `valhalla_instance.stop()` is executed only after the
processing loop completes, on the path that returns `trips`. -/
def calculate_trips (health : Nat → String) (fuel : Nat) (customers : List Customer)
    (pharmLoc : Nat → Point) (resp : Nat → TripRequest → RouteResponse) (r : Nat) :
    List EngineOp × Option (Except PyError (List (Nat × Mode × Trip))) :=
  match awaitReadySteps health fuel with
  | none => ([EngineOp.start], none)
  | some _ =>
    match run_batch customers pharmLoc resp r with
    | Except.error e => ([EngineOp.start], some (Except.error e))
    | Except.ok trips => ([EngineOp.start, EngineOp.stop], some (Except.ok trips))

lemma sorted_take_filter_lt {l : List (Nat × ℚ)} (hs : List.Sorted distLE l)
    {k : Nat} {x : Nat × ℚ} (hx : x ∈ l.take k) :
    (l.filter fun e => decide (e.2 < x.2)).length < k := by
  induction l generalizing k with
  | nil => simp at hx
  | cons a t ih =>
    rcases k with _ | k
    · simp at hx
    · rw [List.sorted_cons] at hs
      obtain ⟨ha, ht⟩ := hs
      simp only [List.take_succ_cons, List.mem_cons] at hx
      rcases hx with rfl | hx
      · have hnil : ((x :: t).filter fun e => decide (e.2 < x.2)) = [] := by
          rw [List.filter_eq_nil_iff]
          intro e he
          simp only [decide_eq_true_eq]
          rcases List.mem_cons.mp he with rfl | he
          · exact lt_irrefl _
          · exact not_lt_of_le (ha e he)
        rw [hnil]
        exact Nat.succ_pos k
      · have h1 := ih ht hx
        by_cases hpa : a.2 < x.2
        · simpa [List.filter_cons, hpa] using Nat.succ_lt_succ h1
        · simp only [List.filter_cons, hpa]
          simp only [decide_eq_true_eq, if_neg hpa]
          exact Nat.lt_succ_of_lt h1

lemma sampleIdx_pos_ok (ws : List (Option ℚ)) (r : Nat) (hne : ws ≠ [])
    (hpos : ∀ w ∈ ws, ∃ q, w = some q ∧ 0 < q) :
    ∃ i, sampleIdx ws r = Except.ok i ∧ i < ws.length := by
  have hlen : 0 < ws.length := List.length_pos.mpr hne
  have h1 : ws.any (fun w => w.isNone) = false := by
    rw [List.any_eq_false]
    intro w hw
    obtain ⟨q, rfl, _⟩ := hpos w hw
    simp
  have hvs : ∀ v ∈ ws.map (fun w => w.getD 0), 0 < v := by
    intro v hv
    obtain ⟨w, hw, rfl⟩ := List.mem_map.mp hv
    obtain ⟨q, rfl, hq⟩ := hpos w hw
    simpa using hq
  have h2 : (ws.map (fun w => w.getD 0)).any (fun v => decide (v < 0)) = false := by
    rw [List.any_eq_false]
    intro v hv
    simpa using le_of_lt (hvs v hv)
  have h3 : (ws.map (fun w => w.getD 0)).sum ≠ 0 := by
    have := List.sum_pos (ws.map (fun w => w.getD 0)) hvs (by simpa using hne)
    exact ne_of_gt this
  have hfilter : ((List.range ws.length).filter
      (fun i => decide (0 < (ws.map (fun w => w.getD 0)).getD i 0))) = List.range ws.length := by
    rw [List.filter_eq_self]
    intro i hi
    have hi' : i < (ws.map (fun w => w.getD 0)).length := by
      simpa using List.mem_range.mp hi
    rw [decide_eq_true_eq, List.getD_eq_getElem?_getD, List.getElem?_eq_getElem hi',
      Option.getD_some]
    exact hvs _ (List.getElem_mem hi')
  have hmod : r % ws.length < ws.length := Nat.mod_lt _ hlen
  refine ⟨r % ws.length, ?_, hmod⟩
  simp only [sampleIdx, h1, Bool.false_eq_true, if_false, h2, if_neg h3, hfilter,
    List.length_range, List.getElem?_range hmod]

lemma chosen_entry_mem {ds : List (Nat × ℚ)} {r : Nat} {e : Nat × ℚ}
    (h : chosen_entry ds r = Except.ok e) : e ∈ closestThree ds := by
  simp only [chosen_entry] at h
  cases hs : sampleIdx ((closestThree ds).map fun p => invWeight p.2) r with
  | error err => rw [hs] at h; exact absurd h (by simp [Except.bind])
  | ok i =>
    rw [hs] at h
    simp only [Except.bind] at h
    cases hg : (closestThree ds)[i]? with
    | none => rw [hg] at h; exact absurd h (by simp)
    | some e' =>
      rw [hg] at h
      obtain ⟨hlt, he⟩ := List.getElem?_eq_some.mp hg
      cases h
      exact he ▸ List.getElem_mem hlt

lemma bucketRow_mem {x : ℚ} {row : ModeRow} (h : bucketRow x = some row) :
    row ∈ probsData := by
  rw [bucketRow] at h
  cases hb : bucketIndex x with
  | none => rw [hb] at h; exact absurd h (by simp)
  | some i =>
    rw [hb] at h
    simp only [Option.bind_eq_bind, Option.some_bind] at h
    obtain ⟨hlt, he⟩ := List.getElem?_eq_some.mp h
    exact he ▸ List.getElem_mem hlt

lemma probs_nonneg (row : ModeRow) (h : row ∈ probsData) (m : Mode) :
    0 ≤ modeProb row m := by
  fin_cases h <;> cases m <;> norm_num [modeProb]

lemma evaluate_pos_branch (avg : ℚ) (avail : List Mode) (r : Nat) (row : ModeRow)
    (h0 : 0 ≤ avg) (hrow : bucketRow avg = some row)
    (htot : (avail.map (modeProb row)).sum ≠ 0) {p : Mode × ℚ}
    (hget : (positiveRestricted row avail)[r % (positiveRestricted row avail).length]?
      = some p) :
    evaluate_mode_of_transport avg avail r = Except.ok p.1 := by
  have htot' : ((avail.map fun m => (m, modeProb row m)).map Prod.snd).sum ≠ 0 := by
    rw [List.map_map]
    simpa [Function.comp] using htot
  rw [positiveRestricted] at hget
  simp only [evaluate_mode_of_transport, if_neg (not_lt.mpr h0), hrow, if_neg htot', hget]

lemma awaitReadySteps_never (health : Nat → String)
    (h : ∀ n, health n ≠ "healthy") : ∀ fuel, awaitReadySteps health fuel = none := by
  intro fuel
  induction fuel generalizing health with
  | zero => rfl
  | succ f ih =>
    rw [awaitReadySteps, if_neg (h 0), ih (fun n => health (n + 1)) (fun n => h (n + 1))]
    rfl

/-- C7: every trip request built for a customer is a round trip: the ordered
location triple has the customer's location first and last
(`locations[0] == locations[2]`) and the assigned pharmacy's location as the
middle waypoint. -/
theorem trip_request_round_trip (cusId : Nat) (cusLoc phLoc : Point)
    (req : TripRequest) (h : req ∈ tripRequests cusId cusLoc phLoc) :
    req.locations[0]? = req.locations[2]? ∧ req.locations[0]? = some cusLoc ∧
    req.locations[1]? = some phLoc ∧ req.id = cusId := by
  simp only [tripRequests, List.mem_map] at h
  obtain ⟨m, _, rfl⟩ := h
  simp [fetch_trip_request, mkLocations]

/-- Witness for C7: the `auto` request of customer 5 at (0,0) assigned the
pharmacy at (3,4). -/
theorem trip_request_round_trip_witness :
    (fetch_trip_request 5 (mkLocations ⟨0,0⟩ ⟨3,4⟩) Mode.auto).locations[0]? =
      (fetch_trip_request 5 (mkLocations ⟨0,0⟩ ⟨3,4⟩) Mode.auto).locations[2]? ∧
    (fetch_trip_request 5 (mkLocations ⟨0,0⟩ ⟨3,4⟩) Mode.auto).locations[0]? =
      some ⟨0,0⟩ ∧
    (fetch_trip_request 5 (mkLocations ⟨0,0⟩ ⟨3,4⟩) Mode.auto).locations[1]? =
      some ⟨3,4⟩ ∧
    (fetch_trip_request 5 (mkLocations ⟨0,0⟩ ⟨3,4⟩) Mode.auto).id = 5 :=
  trip_request_round_trip 5 ⟨0,0⟩ ⟨3,4⟩ _ (by simp [tripRequests])

/-- C9: every bucket of the constructed mode probability table has
probabilities over auto, bicycle and pedestrian summing to exactly 1 (hence
within floating-point tolerance), before any per-customer renormalization. -/
theorem probs_rows_sum_to_one (row : ModeRow) (h : row ∈ probsData) :
    row.auto + row.bicycle + row.pedestrian = 1 := by
  fin_cases h <;> norm_num

/-- Witness for C9: the first bucket `[0, 0.5)`. -/
theorem probs_rows_sum_to_one_witness :
    (⟨12/97, 9/97, 76/97⟩ : ModeRow).auto + (⟨12/97, 9/97, 76/97⟩ : ModeRow).bicycle +
      (⟨12/97, 9/97, 76/97⟩ : ModeRow).pedestrian = 1 :=
  probs_rows_sum_to_one ⟨12/97, 9/97, 76/97⟩ (by simp [probsData])

/-- C8: the distance buckets are left-closed over `[0, ∞)`: a length exactly
equal to the interior boundary 2 is assigned to the bucket `[2, 5)` (index 3,
the interval starting at 2), and lookup succeeds for every non-negative
length. -/
theorem bucket_lookup_left_closed :
    (∀ x : ℚ, 0 ≤ x → ∃ i, bucketIndex x = some i ∧ inBucket x i = true) ∧
    bucketIndex 2 = some 3 ∧ breaksFin[3]? = some 2 ∧ breaksFin[4]? = some 5 := by
  refine ⟨fun x hx => ?_, ?_, rfl, rfl⟩
  · have hsome : (bucketIndex x).isSome = true := by
      rw [bucketIndex, List.find?_isSome]
      rcases lt_or_le x (1/2) with h1 | h1
      · exact ⟨0, by decide, by simp [inBucket, breaksFin]; constructor <;> linarith⟩
      · rcases lt_or_le x 1 with h2 | h2
        · exact ⟨1, by decide, by simp [inBucket, breaksFin]; constructor <;> linarith⟩
        · rcases lt_or_le x 2 with h3 | h3
          · exact ⟨2, by decide, by simp [inBucket, breaksFin]; constructor <;> linarith⟩
          · rcases lt_or_le x 5 with h4 | h4
            · exact ⟨3, by decide, by simp [inBucket, breaksFin]; constructor <;> linarith⟩
            · rcases lt_or_le x 10 with h5 | h5
              · exact ⟨4, by decide, by simp [inBucket, breaksFin]; constructor <;> linarith⟩
              · rcases lt_or_le x 20 with h6 | h6
                · exact ⟨5, by decide, by simp [inBucket, breaksFin]; constructor <;> linarith⟩
                · rcases lt_or_le x 50 with h7 | h7
                  · exact ⟨6, by decide, by simp [inBucket, breaksFin]; constructor <;> linarith⟩
                  · rcases lt_or_le x 100 with h8 | h8
                    · exact ⟨7, by decide, by simp [inBucket, breaksFin]; constructor <;> linarith⟩
                    · exact ⟨8, by decide, by simp [inBucket, breaksFin]; linarith⟩
    obtain ⟨i, hi⟩ := Option.isSome_iff_exists.mp hsome
    exact ⟨i, hi, List.find?_some hi⟩
  · have r9 : List.range 9 = [0,1,2,3,4,5,6,7,8] := by decide
    have h0 : ¬ inBucket 2 0 = true := by norm_num [inBucket, breaksFin]
    have h1 : ¬ inBucket 2 1 = true := by norm_num [inBucket, breaksFin]
    have h2 : ¬ inBucket 2 2 = true := by norm_num [inBucket, breaksFin]
    have h3 : inBucket 2 3 = true := by norm_num [inBucket, breaksFin]
    rw [bucketIndex, r9, List.find?_cons_of_neg _ h0, List.find?_cons_of_neg _ h1,
        List.find?_cons_of_neg _ h2, List.find?_cons_of_pos _ h3]

/-- Witness for C8: lookup of the boundary value 2 lands in an interval,
namely the one `bucket_lookup_left_closed` computes. -/
theorem bucket_lookup_left_closed_witness :
    ∃ i, bucketIndex 2 = some i ∧ inBucket 2 i = true :=
  bucket_lookup_left_closed.1 2 (by norm_num)

/-- C5: whenever the selector assigns a pharmacy, the sampled candidate is a
pharmacy of the distance series and fewer than 3 pharmacies are strictly
nearer to the customer (brute-force comparison over the whole series), i.e.
the assignment is among the k=3 nearest pharmacies. -/
theorem assigned_among_three_nearest (ds : List (Nat × ℚ)) (r : Nat) (e : Nat × ℚ)
    (h : chosen_entry ds r = Except.ok e) :
    e ∈ ds ∧ ((ds.filter fun p => decide (p.2 < e.2)).length < 3) ∧
    chosen_pharmacy ds r = Except.ok e.1 := by
  have hmem3 : e ∈ (sortByDistance ds).take 3 := chosen_entry_mem h
  have hsorted : List.Sorted distLE (sortByDistance ds) :=
    List.sorted_insertionSort distLE ds
  have hperm : (sortByDistance ds).Perm ds := List.perm_insertionSort distLE ds
  have h2 : e ∈ ds := hperm.mem_iff.mp (List.mem_of_mem_take hmem3)
  have h3 := sorted_take_filter_lt hsorted hmem3
  have h4 : ((sortByDistance ds).filter fun p => decide (p.2 < e.2)).length
      = (ds.filter fun p => decide (p.2 < e.2)).length :=
    (hperm.filter _).length_eq
  exact ⟨h2, h4 ▸ h3, by simp [chosen_pharmacy, h, Except.map]⟩

/-- Witness for C5: four pharmacies at distances 4, 1, 3, 2; the draw `r = 1`
selects pharmacy 13 at distance 2, and at most two pharmacies are nearer. -/
theorem assigned_among_three_nearest_witness :
    (13, (2:ℚ)) ∈ [(10, (4:ℚ)), (11, 1), (12, 3), (13, 2)] ∧
    (([(10, (4:ℚ)), (11, 1), (12, 3), (13, 2)].filter
      fun p => decide (p.2 < (13, (2:ℚ)).2)).length < 3) ∧
    chosen_pharmacy [(10, (4:ℚ)), (11, 1), (12, 3), (13, 2)] 1 = Except.ok (13, (2:ℚ)).1 :=
  assigned_among_three_nearest [(10, 4), (11, 1), (12, 3), (13, 2)] 1 (13, 2) (by
    norm_num [chosen_entry, closestThree, sortByDistance, List.insertionSort,
      List.orderedInsert, distLE, sampleIdx, invWeight, List.range_succ, Except.bind])

/-- C10, counterexample to the claim as stated: with a single pharmacy
(n = 1 ≥ 1) located at distance 0, the selector does not return an
assignment — the inverse weight is the float infinity and
`Series.sample` raises `ValueError`. -/
theorem short_list_zero_distance_fails :
    chosen_pharmacy [(7, (0:ℚ))] 0 = Except.error PyError.valueError := by
  norm_num [chosen_pharmacy, chosen_entry, closestThree, sortByDistance,
    List.insertionSort, List.orderedInsert, sampleIdx, invWeight, Except.bind, Except.map]

/-- C10 (amended): for every non-empty distance series whose candidate
distances are all positive, the candidate list has size `min 3 n` and the
selector returns an assignment. -/
theorem short_candidate_list_ok (ds : List (Nat × ℚ)) (r : Nat)
    (hne : ds ≠ []) (hpos : ∀ e ∈ ds, 0 < e.2) :
    (closestThree ds).length = min 3 ds.length ∧
    ∃ i, chosen_pharmacy ds r = Except.ok i := by
  have hlen : (closestThree ds).length = min 3 ds.length := by
    rw [closestThree, List.length_take, sortByDistance, List.length_insertionSort]
  have hcne : closestThree ds ≠ [] := by
    have : 0 < (closestThree ds).length := by
      rw [hlen]
      exact lt_min (by norm_num) (List.length_pos.mpr hne)
    exact List.length_pos.mp this
  have hwpos : ∀ w ∈ (closestThree ds).map fun e => invWeight e.2,
      ∃ q, w = some q ∧ 0 < q := by
    intro w hw
    obtain ⟨e, he, rfl⟩ := List.mem_map.mp hw
    have hed : 0 < e.2 := by
      have : e ∈ ds :=
        (List.perm_insertionSort distLE ds).mem_iff.mp (List.mem_of_mem_take he)
      exact hpos e this
    exact ⟨1 / e.2, by rw [invWeight, if_neg (ne_of_gt hed)], by positivity⟩
  obtain ⟨i, hok, hilt⟩ := sampleIdx_pos_ok _ r (by simpa using hcne) hwpos
  rw [List.length_map] at hilt
  refine ⟨hlen, ((closestThree ds).get ⟨i, hilt⟩).1, ?_⟩
  rw [chosen_pharmacy, chosen_entry]
  simp only [hok, Except.bind, List.getElem?_eq_getElem hilt]
  rfl

/-- Witness for C10 (amended): a single pharmacy at positive distance 2 is
assigned. -/
theorem short_candidate_list_ok_witness :
    (closestThree [(5, (2:ℚ))]).length = min 3 [(5, (2:ℚ))].length ∧
    ∃ i, chosen_pharmacy [(5, (2:ℚ))] 0 = Except.ok i :=
  short_candidate_list_ok [(5, 2)] 0 (by simp) (by norm_num)

/-- C4: a candidate pharmacy at exactly zero distance is not special-cased
by the code: the weight `1 / 0.0` is the float infinity and
`Series.sample(weights=...)` rejects infinite weights with a `ValueError`
for every draw, so no pharmacy is selected at all (the claimed deterministic
selection does not happen). -/
theorem zero_distance_candidate_raises (r : Nat) :
    chosen_pharmacy [(7, (0:ℚ)), (8, 1), (9, 2)] r = Except.error PyError.valueError := by
  norm_num [chosen_pharmacy, chosen_entry, closestThree, sortByDistance,
    List.insertionSort, List.orderedInsert, distLE, sampleIdx, invWeight,
    Except.bind, Except.map]

/-- C6: for a customer whose available modes carry nonzero restricted mass,
the inferred mode is always one of the modes that returned valid trip data,
and the sampling weights are the bucket row's probabilities restricted to
the available modes, each divided by the restricted total, summing to 1. -/
theorem chosen_mode_available_renormalized (avg : ℚ) (avail : List Mode) (r : Nat)
    (row : ModeRow) (h0 : 0 ≤ avg) (hrow : bucketRow avg = some row)
    (htot : (avail.map (modeProb row)).sum ≠ 0) :
    (∃ m, evaluate_mode_of_transport avg avail r = Except.ok m ∧ m ∈ avail) ∧
    renormalizedWeights avg avail =
      some (avail.map fun m => (m, modeProb row m / (avail.map (modeProb row)).sum)) ∧
    (avail.map fun m => modeProb row m / (avail.map (modeProb row)).sum).sum = 1 := by
  have hnn : ∀ m ∈ avail, 0 ≤ modeProb row m :=
    fun m _ => probs_nonneg row (bucketRow_mem hrow) m
  have hex : ∃ m ∈ avail, 0 < modeProb row m := by
    by_contra hall
    push_neg at hall
    apply htot
    apply List.sum_eq_zero
    intro x hx
    obtain ⟨m, hm, rfl⟩ := List.mem_map.mp hx
    exact le_antisymm (hall m hm) (hnn m hm)
  refine ⟨?_, ?_, ?_⟩
  · obtain ⟨m0, hm0, hm0pos⟩ := hex
    have hmem : (m0, modeProb row m0) ∈ positiveRestricted row avail :=
      List.mem_filter.mpr ⟨List.mem_map.mpr ⟨m0, hm0, rfl⟩, by simpa using hm0pos⟩
    have hplen : 0 < (positiveRestricted row avail).length :=
      List.length_pos.mpr (List.ne_nil_of_mem hmem)
    have hlt : r % (positiveRestricted row avail).length
        < (positiveRestricted row avail).length := Nat.mod_lt _ hplen
    have hget := List.getElem?_eq_getElem hlt
    refine ⟨_, evaluate_pos_branch avg avail r row h0 hrow htot hget, ?_⟩
    have hp := List.mem_of_mem_filter (List.getElem_mem hlt)
    obtain ⟨m, hm, he⟩ := List.mem_map.mp hp
    rw [← he]
    exact hm
  · simp [renormalizedWeights, hrow]
  · have hmap : (avail.map fun m => modeProb row m / (avail.map (modeProb row)).sum) =
        avail.map fun m => modeProb row m * ((avail.map (modeProb row)).sum)⁻¹ := by
      simp [div_eq_mul_inv]
    rw [hmap, List.sum_map_mul_right, mul_inv_cancel₀ htot]

/-- Witness for C6: the spec's example — average length 3/2 falls in the
bucket `[1, 2)` with row `{auto: 42/88, bicycle: 19/88, pedestrian: 27/88}`;
with auto missing, the chosen mode is bicycle or pedestrian and the weights
are `19/88` and `27/88` divided by their sum `46/88`. -/
theorem chosen_mode_available_renormalized_witness :
    (∃ m, evaluate_mode_of_transport (3/2) [Mode.bicycle, Mode.pedestrian] 0 =
        Except.ok m ∧ m ∈ [Mode.bicycle, Mode.pedestrian]) ∧
    renormalizedWeights (3/2) [Mode.bicycle, Mode.pedestrian] =
      some ([Mode.bicycle, Mode.pedestrian].map fun m =>
        (m, modeProb ⟨42/88, 19/88, 27/88⟩ m /
          ([Mode.bicycle, Mode.pedestrian].map (modeProb ⟨42/88, 19/88, 27/88⟩)).sum)) ∧
    ([Mode.bicycle, Mode.pedestrian].map fun m =>
      modeProb ⟨42/88, 19/88, 27/88⟩ m /
        ([Mode.bicycle, Mode.pedestrian].map (modeProb ⟨42/88, 19/88, 27/88⟩)).sum).sum = 1 :=
  chosen_mode_available_renormalized (3/2) [Mode.bicycle, Mode.pedestrian] 0
    ⟨42/88, 19/88, 27/88⟩ (by norm_num)
    (by
      have r9 : List.range 9 = [0,1,2,3,4,5,6,7,8] := by decide
      have h0 : ¬ inBucket (3/2) 0 = true := by norm_num [inBucket, breaksFin]
      have h1 : ¬ inBucket (3/2) 1 = true := by norm_num [inBucket, breaksFin]
      have h2 : inBucket (3/2) 2 = true := by norm_num [inBucket, breaksFin]
      have hb : bucketIndex (3/2) = some 2 := by
        rw [bucketIndex, r9, List.find?_cons_of_neg _ h0, List.find?_cons_of_neg _ h1,
          List.find?_cons_of_pos _ h2]
      rw [bucketRow, hb]
      rfl)
    (by norm_num [modeProb])

/-- C1: the NoViableMode condition is not handled — when all three mode
requests of a customer return responses without trip data, `process_customer`
evaluates `sum([...]) / len(results)` with `len(results) = 0` and raises
`ZeroDivisionError` instead of recording a failed customer. -/
theorem no_viable_mode_divides_by_zero (cusId : Nat) (cusLoc phLoc : Point) (r : Nat) :
    process_customer cusId cusLoc phLoc (fun _ => ⟨none⟩) r =
      Except.error PyError.zeroDivisionError := by
  simp [process_customer, tripRequests, fetch_trip_request, mkLocations, pyDiv,
    Except.bind]

/-- C2: `stop()` is not invoked on every exit path — in a batch whose one
customer has no viable mode, the processing phase raises, the exception
propagates, and the lifecycle trace contains no `stop` operation. -/
theorem stop_skipped_on_batch_error :
    (calculate_trips (fun _ => "healthy") 1 [⟨1, ⟨0,0⟩, 4⟩] (fun _ => ⟨1,1⟩)
        (fun _ _ => ⟨none⟩) 0).2 = some (Except.error PyError.zeroDivisionError) ∧
    EngineOp.stop ∉ (calculate_trips (fun _ => "healthy") 1 [⟨1, ⟨0,0⟩, 4⟩]
        (fun _ => ⟨1,1⟩) (fun _ _ => ⟨none⟩) 0).1 := by
  have hb : run_batch [⟨1, ⟨0,0⟩, 4⟩] (fun _ => ⟨1,1⟩) (fun _ _ => ⟨none⟩) 0 =
      Except.error PyError.zeroDivisionError := by
    simp [run_batch, process_customer, tripRequests, fetch_trip_request, mkLocations,
      pyDiv, Except.bind]
  have ha : awaitReadySteps (fun _ => "healthy") 1 = some 0 := by
    rw [awaitReadySteps, if_pos rfl]
  refine ⟨?_, ?_⟩
  · simp [calculate_trips, ha, hb]
  · simp [calculate_trips, ha, hb]

/-- C3: awaiting engine readiness does not fail within a deadline — for a
health stream that never reports healthy, the polling loop of
`calculate_trips` has not exited after any number of polls, and the run
produces no outcome at all (no `ServiceUnavailable` error exists in the
code); the loop polls without bound. -/
theorem health_poll_unbounded (fuel : Nat) (customers : List Customer)
    (pharmLoc : Nat → Point) (resp : Nat → TripRequest → RouteResponse) (r : Nat) :
    awaitReadySteps (fun _ => "starting") fuel = none ∧
    (calculate_trips (fun _ => "starting") fuel customers pharmLoc resp r).2 = none := by
  have h := awaitReadySteps_never (fun _ => "starting") (fun n => by simp) fuel
  exact ⟨h, by simp [calculate_trips, h]⟩
